import Mathlib

/-! Eigen AVX packet primitives (`Eigen/src/Core/arch/AVX/PacketMath.h`)

A shallow embedding of the 256-bit packet provider.  A packet is the record of its lanes,
lane 0 the lowest; the scalar type of the lanes is a parameter `α`, so that the shuffle
networks are checked for every lane content.  Each AVX intrinsic the source calls is a
definition that follows the operation pseudo-code of the instruction set reference, and
each primitive of the source is the same composition of intrinsics as in the header.
-/

namespace Eigen
namespace internal

/-! ## Packet types -/

/-- Packet of eight 32-bit lanes (`typedef __m256 Packet8f`); `x0` is bits `[31:0]`. -/
structure Packet8f (α : Type) where
  x0 : α
  x1 : α
  x2 : α
  x3 : α
  x4 : α
  x5 : α
  x6 : α
  x7 : α
  deriving DecidableEq, Repr

/-- Packet of four 64-bit lanes (`typedef __m256d Packet4d`); `x0` is bits `[63:0]`. -/
structure Packet4d (α : Type) where
  x0 : α
  x1 : α
  x2 : α
  x3 : α
  deriving DecidableEq, Repr

/-- A 128-bit register of four floats (`__m128`). -/
structure M128 (α : Type) where
  x0 : α
  x1 : α
  x2 : α
  x3 : α
  deriving DecidableEq, Repr

/-- A 128-bit register of two doubles (`__m128d`). -/
structure M128d (α : Type) where
  x0 : α
  x1 : α
  deriving DecidableEq, Repr

section Lanes
variable {α : Type}

/-- Lane `i` of an eight-lane packet (`a[i]`). -/
def Packet8f.lane (a : Packet8f α) (i : Fin 8) : α :=
  match i.val with
  | 0 => a.x0
  | 1 => a.x1
  | 2 => a.x2
  | 3 => a.x3
  | 4 => a.x4
  | 5 => a.x5
  | 6 => a.x6
  | _ => a.x7

/-- Lane `i` of a four-lane packet (`a[i]`). -/
def Packet4d.lane (a : Packet4d α) (i : Fin 4) : α :=
  match i.val with
  | 0 => a.x0
  | 1 => a.x1
  | 2 => a.x2
  | _ => a.x3

end Lanes

/-! ## Intrinsics -/

section Intrinsics
variable {α : Type}

/-- The immediate builder of `xmmintrin.h`:
`(((fp3) << 6) | ((fp2) << 4) | ((fp1) << 2) | (fp0))`. -/
def _MM_SHUFFLE (fp3 fp2 fp1 fp0 : Nat) : Nat :=
  (fp3 <<< 6) ||| (fp2 <<< 4) ||| (fp1 <<< 2) ||| fp0

/-- Bit field `imm[lo + width - 1 : lo]` of an immediate. -/
def field (imm lo width : Nat) : Nat := (imm >>> lo) % 2 ^ width

/-- Bits `[127:0]` of a 256-bit float register. -/
def low_ps (a : Packet8f α) : M128 α := ⟨a.x0, a.x1, a.x2, a.x3⟩

/-- Bits `[255:128]` of a 256-bit float register. -/
def high_ps (a : Packet8f α) : M128 α := ⟨a.x4, a.x5, a.x6, a.x7⟩

/-- The 256-bit float register with the given low and high halves. -/
def join_ps (l h : M128 α) : Packet8f α := ⟨l.x0, l.x1, l.x2, l.x3, h.x0, h.x1, h.x2, h.x3⟩

/-- Bits `[127:0]` of a 256-bit double register. -/
def low_pd (a : Packet4d α) : M128d α := ⟨a.x0, a.x1⟩

/-- Bits `[255:128]` of a 256-bit double register. -/
def high_pd (a : Packet4d α) : M128d α := ⟨a.x2, a.x3⟩

/-- The 256-bit double register with the given low and high halves. -/
def join_pd (l h : M128d α) : Packet4d α := ⟨l.x0, l.x1, h.x0, h.x1⟩

/-- The element selector of `vpermilps` and `vshufps`:
`CASE control[1:0] OF 0: src[31:0]; 1: src[63:32]; 2: src[95:64]; 3: src[127:96]`. -/
def SELECT4 (src : M128 α) (control : Nat) : α :=
  match control % 4 with
  | 0 => src.x0
  | 1 => src.x1
  | 2 => src.x2
  | _ => src.x3

/-- The half selector of `vperm2f128` on float registers:
`CASE control[1:0] OF 0: src1[127:0]; 1: src1[255:128]; 2: src2[127:0]; 3: src2[255:128]`,
then `IF control[3] tmp[127:0] := 0`. -/
def SELECT128_ps [Zero α] (src1 src2 : Packet8f α) (control : Nat) : M128 α :=
  let tmp : M128 α :=
    match control % 4 with
    | 0 => low_ps src1
    | 1 => high_ps src1
    | 2 => low_ps src2
    | _ => high_ps src2
  if control.testBit 3 then ⟨0, 0, 0, 0⟩ else tmp

/-- The half selector of `vperm2f128` on double registers, as `SELECT128_ps`. -/
def SELECT128_pd [Zero α] (src1 src2 : Packet4d α) (control : Nat) : M128d α :=
  let tmp : M128d α :=
    match control % 4 with
    | 0 => low_pd src1
    | 1 => high_pd src1
    | 2 => low_pd src2
    | _ => high_pd src2
  if control.testBit 3 then ⟨0, 0⟩ else tmp

/-- Intrinsic `_mm256_permute_ps(a, imm8)`: within each 128-bit half,
`dst[j] := SELECT4(a.half, imm8[2j+1:2j])`. -/
def _mm256_permute_ps (a : Packet8f α) (imm8 : Nat) : Packet8f α :=
  join_ps
    ⟨SELECT4 (low_ps a) (field imm8 0 2), SELECT4 (low_ps a) (field imm8 2 2),
      SELECT4 (low_ps a) (field imm8 4 2), SELECT4 (low_ps a) (field imm8 6 2)⟩
    ⟨SELECT4 (high_ps a) (field imm8 0 2), SELECT4 (high_ps a) (field imm8 2 2),
      SELECT4 (high_ps a) (field imm8 4 2), SELECT4 (high_ps a) (field imm8 6 2)⟩

/-- Intrinsic `_mm256_shuffle_ps(a, b, imm8)`: within each 128-bit half, the two low
elements are selected from `a` and the two high elements from `b`. -/
def _mm256_shuffle_ps (a b : Packet8f α) (imm8 : Nat) : Packet8f α :=
  join_ps
    ⟨SELECT4 (low_ps a) (field imm8 0 2), SELECT4 (low_ps a) (field imm8 2 2),
      SELECT4 (low_ps b) (field imm8 4 2), SELECT4 (low_ps b) (field imm8 6 2)⟩
    ⟨SELECT4 (high_ps a) (field imm8 0 2), SELECT4 (high_ps a) (field imm8 2 2),
      SELECT4 (high_ps b) (field imm8 4 2), SELECT4 (high_ps b) (field imm8 6 2)⟩

/-- Intrinsic `_mm256_permute2f128_ps(a, b, imm8)`:
`dst[127:0] := SELECT4(a, b, imm8[3:0])`, `dst[255:128] := SELECT4(a, b, imm8[7:4])`. -/
def _mm256_permute2f128_ps [Zero α] (a b : Packet8f α) (imm8 : Nat) : Packet8f α :=
  join_ps (SELECT128_ps a b (field imm8 0 4)) (SELECT128_ps a b (field imm8 4 4))

/-- Intrinsic `_mm256_blend_ps(a, b, imm8)`: `dst[j] := imm8[j] ? b[j] : a[j]`. -/
def _mm256_blend_ps (a b : Packet8f α) (imm8 : Nat) : Packet8f α :=
  ⟨if imm8.testBit 0 then b.x0 else a.x0, if imm8.testBit 1 then b.x1 else a.x1,
   if imm8.testBit 2 then b.x2 else a.x2, if imm8.testBit 3 then b.x3 else a.x3,
   if imm8.testBit 4 then b.x4 else a.x4, if imm8.testBit 5 then b.x5 else a.x5,
   if imm8.testBit 6 then b.x6 else a.x6, if imm8.testBit 7 then b.x7 else a.x7⟩

/-- Intrinsic `_mm256_permute_pd(a, imm8)`: `dst[0] := a[imm8[0]]`, `dst[1] := a[imm8[1]]`,
`dst[2] := a[2 + imm8[2]]`, `dst[3] := a[2 + imm8[3]]`. -/
def _mm256_permute_pd (a : Packet4d α) (imm8 : Nat) : Packet4d α :=
  ⟨if imm8.testBit 0 then a.x1 else a.x0, if imm8.testBit 1 then a.x1 else a.x0,
   if imm8.testBit 2 then a.x3 else a.x2, if imm8.testBit 3 then a.x3 else a.x2⟩

/-- Intrinsic `_mm256_shuffle_pd(a, b, imm8)`:
`dst[0] := (imm8[0] == 0) ? a[0] : a[1]`, `dst[1] := (imm8[1] == 0) ? b[0] : b[1]`,
`dst[2] := (imm8[2] == 0) ? a[2] : a[3]`, `dst[3] := (imm8[3] == 0) ? b[2] : b[3]`. -/
def _mm256_shuffle_pd (a b : Packet4d α) (imm8 : Nat) : Packet4d α :=
  ⟨if imm8.testBit 0 then a.x1 else a.x0, if imm8.testBit 1 then b.x1 else b.x0,
   if imm8.testBit 2 then a.x3 else a.x2, if imm8.testBit 3 then b.x3 else b.x2⟩

/-- Intrinsic `_mm256_permute2f128_pd(a, b, imm8)`:
`dst[127:0] := SELECT4(a, b, imm8[3:0])`, `dst[255:128] := SELECT4(a, b, imm8[7:4])`. -/
def _mm256_permute2f128_pd [Zero α] (a b : Packet4d α) (imm8 : Nat) : Packet4d α :=
  join_pd (SELECT128_pd a b (field imm8 0 4)) (SELECT128_pd a b (field imm8 4 4))

/-- Intrinsic `_mm256_blend_pd(a, b, imm8)`: `dst[j] := imm8[j] ? b[j] : a[j]`. -/
def _mm256_blend_pd (a b : Packet4d α) (imm8 : Nat) : Packet4d α :=
  ⟨if imm8.testBit 0 then b.x0 else a.x0, if imm8.testBit 1 then b.x1 else a.x1,
   if imm8.testBit 2 then b.x2 else a.x2, if imm8.testBit 3 then b.x3 else a.x3⟩

/-- Intrinsic `_mm256_add_ps(a, b)`: `dst[j] := a[j] + b[j]`. -/
def _mm256_add_ps [Add α] (a b : Packet8f α) : Packet8f α :=
  ⟨a.x0 + b.x0, a.x1 + b.x1, a.x2 + b.x2, a.x3 + b.x3,
   a.x4 + b.x4, a.x5 + b.x5, a.x6 + b.x6, a.x7 + b.x7⟩

/-- Intrinsic `_mm256_add_pd(a, b)`: `dst[j] := a[j] + b[j]`. -/
def _mm256_add_pd [Add α] (a b : Packet4d α) : Packet4d α :=
  ⟨a.x0 + b.x0, a.x1 + b.x1, a.x2 + b.x2, a.x3 + b.x3⟩

/-- Intrinsic `_mm256_mul_ps(a, b)`: `dst[j] := a[j] * b[j]`. -/
def _mm256_mul_ps [Mul α] (a b : Packet8f α) : Packet8f α :=
  ⟨a.x0 * b.x0, a.x1 * b.x1, a.x2 * b.x2, a.x3 * b.x3,
   a.x4 * b.x4, a.x5 * b.x5, a.x6 * b.x6, a.x7 * b.x7⟩

/-- Intrinsic `_mm256_mul_pd(a, b)`: `dst[j] := a[j] * b[j]`. -/
def _mm256_mul_pd [Mul α] (a b : Packet4d α) : Packet4d α :=
  ⟨a.x0 * b.x0, a.x1 * b.x1, a.x2 * b.x2, a.x3 * b.x3⟩

/-- Intrinsic `_mm256_hadd_ps(a, b)`: every result element is the sum of two adjacent
elements, the lower one being the first operand of the addition.  Within each 128-bit half
the results are `a[0] + a[1]`, `a[2] + a[3]`, `b[0] + b[1]`, `b[2] + b[3]` of that half. -/
def _mm256_hadd_ps [Add α] (a b : Packet8f α) : Packet8f α :=
  ⟨a.x0 + a.x1, a.x2 + a.x3, b.x0 + b.x1, b.x2 + b.x3,
   a.x4 + a.x5, a.x6 + a.x7, b.x4 + b.x5, b.x6 + b.x7⟩

/-- Intrinsic `_mm256_hadd_pd(a, b)`: every result element is the sum of two adjacent
elements, the lower one being the first operand of the addition.  Within each 128-bit half
the results are `a[0] + a[1]`, `b[0] + b[1]` of that half. -/
def _mm256_hadd_pd [Add α] (a b : Packet4d α) : Packet4d α :=
  ⟨a.x0 + a.x1, b.x0 + b.x1, a.x2 + a.x3, b.x2 + b.x3⟩

/-- Intrinsic `_mm256_castps256_ps128(a)`: the low 128 bits. -/
def _mm256_castps256_ps128 (a : Packet8f α) : M128 α := low_ps a

/-- Intrinsic `_mm256_castpd256_pd128(a)`: the low 128 bits. -/
def _mm256_castpd256_pd128 (a : Packet4d α) : M128d α := low_pd a

/-- Intrinsic `_mm_cvtss_f32(a)`: the lowest float of a 128-bit register. -/
def _mm_cvtss_f32 (a : M128 α) : α := a.x0

/-- Intrinsic `_mm_cvtsd_f64(a)`: the lowest double of a 128-bit register. -/
def _mm_cvtsd_f64 (a : M128d α) : α := a.x0

/-- Intrinsic `_mm256_loadu_ps(mem_addr)`: the eight consecutive floats at `from_`, the lowest
address in lane 0.  A pointer is an array with a start index; the load is defined when all
eight floats are inside the array. -/
def _mm256_loadu_ps (mem : List α) (from_ : Nat) : Option (Packet8f α) :=
  if h : from_ + 8 ≤ mem.length then
    some ⟨mem.get ⟨from_, by omega⟩, mem.get ⟨from_ + 1, by omega⟩,
          mem.get ⟨from_ + 2, by omega⟩, mem.get ⟨from_ + 3, by omega⟩,
          mem.get ⟨from_ + 4, by omega⟩, mem.get ⟨from_ + 5, by omega⟩,
          mem.get ⟨from_ + 6, by omega⟩, mem.get ⟨from_ + 7, by omega⟩⟩
  else none

/-- Intrinsic `_mm256_loadu_pd(mem_addr)`: the four consecutive doubles at `from_`, the lowest
address in lane 0; defined when all four doubles are inside the array. -/
def _mm256_loadu_pd (mem : List α) (from_ : Nat) : Option (Packet4d α) :=
  if h : from_ + 4 ≤ mem.length then
    some ⟨mem.get ⟨from_, by omega⟩, mem.get ⟨from_ + 1, by omega⟩,
          mem.get ⟨from_ + 2, by omega⟩, mem.get ⟨from_ + 3, by omega⟩⟩
  else none

end Intrinsics

/-! ## Loads and first-lane extraction -/

section Loads
variable {α : Type}

/-- Specialisation `ploadu<Packet8f>(from)`. -/
def ploadu_Packet8f (mem : List α) (from_ : Nat) : Option (Packet8f α) :=
  _mm256_loadu_ps mem from_

/-- Specialisation `ploadu<Packet4d>(from)`. -/
def ploadu_Packet4d (mem : List α) (from_ : Nat) : Option (Packet4d α) :=
  _mm256_loadu_pd mem from_

/-- Specialisation `pfirst<Packet8f>(a)`. -/
def pfirst_Packet8f (a : Packet8f α) : α := _mm_cvtss_f32 (_mm256_castps256_ps128 a)

/-- Specialisation `pfirst<Packet4d>(a)`. -/
def pfirst_Packet4d (a : Packet4d α) : α := _mm_cvtsd_f64 (_mm256_castpd256_pd128 a)

end Loads

/-! ## Broadcast-duplicate load, reverse and reductions -/

section Shuffles
variable {α : Type} [Zero α]

/-- Specialisation `ploaddup<Packet8f>(from)`. -/
def ploaddup_Packet8f (mem : List α) (from_ : Nat) : Option (Packet8f α) :=
  (ploadu_Packet8f mem from_).map fun tmp =>
    let tmp1 := _mm256_permute_ps tmp (_MM_SHUFFLE 3 3 2 2)
    let tmp2 := _mm256_permute_ps tmp (_MM_SHUFFLE 1 1 0 0)
    _mm256_blend_ps (_mm256_permute2f128_ps tmp1 tmp1 1) tmp2 15

/-- Specialisation `ploaddup<Packet4d>(from)`. -/
def ploaddup_Packet4d (mem : List α) (from_ : Nat) : Option (Packet4d α) :=
  (ploadu_Packet4d mem from_).map fun tmp =>
    let tmp1 := _mm256_permute_pd tmp 0
    let tmp2 := _mm256_permute_pd tmp 3
    _mm256_blend_pd tmp1 (_mm256_permute2f128_pd tmp2 tmp2 1) 12

/-- Specialisation `preverse(const Packet8f&)`. -/
def preverse_Packet8f (a : Packet8f α) : Packet8f α :=
  let tmp := _mm256_shuffle_ps a a 0x1b
  _mm256_permute2f128_ps tmp tmp 1

/-- Specialisation `preverse(const Packet4d&)`: the statements up to the first `return`. -/
def preverse_Packet4d (a : Packet4d α) : Packet4d α :=
  let tmp := _mm256_shuffle_pd a a 5
  _mm256_permute2f128_pd tmp tmp 1

/-- Specialisation `preduxp<Packet8f>(vecs)`; `vecs` points to eight packets. -/
def preduxp_Packet8f [Add α] (vecs : Fin 8 → Packet8f α) : Packet8f α :=
  let hsum1 := _mm256_hadd_ps (vecs 0) (vecs 1)
  let hsum2 := _mm256_hadd_ps (vecs 2) (vecs 3)
  let hsum3 := _mm256_hadd_ps (vecs 4) (vecs 5)
  let hsum4 := _mm256_hadd_ps (vecs 6) (vecs 7)
  let hsum5 := _mm256_hadd_ps hsum1 hsum1
  let hsum6 := _mm256_hadd_ps hsum2 hsum2
  let hsum7 := _mm256_hadd_ps hsum3 hsum3
  let hsum8 := _mm256_hadd_ps hsum4 hsum4
  let perm1 := _mm256_permute2f128_ps hsum5 hsum5 0x23
  let perm2 := _mm256_permute2f128_ps hsum6 hsum6 0x23
  let perm3 := _mm256_permute2f128_ps hsum7 hsum7 0x23
  let perm4 := _mm256_permute2f128_ps hsum8 hsum8 0x23
  let sum1 := _mm256_add_ps perm1 hsum5
  let sum2 := _mm256_add_ps perm2 hsum6
  let sum3 := _mm256_add_ps perm3 hsum7
  let sum4 := _mm256_add_ps perm4 hsum8
  let blend1 := _mm256_blend_ps sum1 sum2 0xcc
  let blend2 := _mm256_blend_ps sum3 sum4 0xcc
  let final := _mm256_blend_ps blend1 blend2 0xf0
  final

/-- Specialisation `preduxp<Packet4d>(vecs)`; `vecs` points to four packets. -/
def preduxp_Packet4d [Add α] (vecs : Fin 4 → Packet4d α) : Packet4d α :=
  let tmp0 := _mm256_hadd_pd (vecs 0) (vecs 1)
  let tmp0 := _mm256_add_pd tmp0 (_mm256_permute2f128_pd tmp0 tmp0 1)
  let tmp1 := _mm256_hadd_pd (vecs 2) (vecs 3)
  let tmp1 := _mm256_add_pd tmp1 (_mm256_permute2f128_pd tmp1 tmp1 1)
  _mm256_blend_pd tmp0 tmp1 0xC

/-- Specialisation `predux<Packet8f>(a)`. -/
def predux_Packet8f [Add α] (a : Packet8f α) : α :=
  let tmp0 := _mm256_hadd_ps a (_mm256_permute2f128_ps a a 1)
  let tmp0 := _mm256_hadd_ps tmp0 tmp0
  pfirst_Packet8f (_mm256_hadd_ps tmp0 tmp0)

/-- Specialisation `predux<Packet4d>(a)`. -/
def predux_Packet4d [Add α] (a : Packet4d α) : α :=
  let tmp0 := _mm256_hadd_pd a (_mm256_permute2f128_pd a a 1)
  pfirst_Packet4d (_mm256_hadd_pd tmp0 tmp0)

/-- Specialisation `predux_mul<Packet8f>(a)`. -/
def predux_mul_Packet8f [Mul α] (a : Packet8f α) : α :=
  let tmp := _mm256_mul_ps a (_mm256_permute2f128_ps a a 1)
  let tmp := _mm256_mul_ps tmp (_mm256_shuffle_ps tmp tmp (_MM_SHUFFLE 1 0 3 2))
  pfirst_Packet8f (_mm256_mul_ps tmp (_mm256_shuffle_ps tmp tmp 1))

/-- Specialisation `predux_mul<Packet4d>(a)`. -/
def predux_mul_Packet4d [Mul α] (a : Packet4d α) : α :=
  let tmp := _mm256_mul_pd a (_mm256_permute2f128_pd a a 1)
  pfirst_Packet4d (_mm256_mul_pd tmp (_mm256_shuffle_pd tmp tmp 1))

end Shuffles

/-! ## Realignment -/

section Palign
variable {α : Type} [Zero α]

/-- Template `palign_impl<Offset,Packet8f>::run(first, second)`; the value is the content of
`first` after the call (`first` is passed by reference and overwritten). -/
def palign_impl_Packet8f_run (Offset : Int) (first second : Packet8f α) : Packet8f α :=
  if Offset = 1 then
    let first := _mm256_blend_ps first second 1
    let tmp := _mm256_permute_ps first (_MM_SHUFFLE 0 3 2 1)
    _mm256_blend_ps tmp (_mm256_permute2f128_ps tmp tmp 1) 0x88
  else if Offset = 2 then
    let first := _mm256_blend_ps first second 3
    let tmp := _mm256_permute_ps first (_MM_SHUFFLE 1 0 3 2)
    _mm256_blend_ps tmp (_mm256_permute2f128_ps tmp tmp 1) 0xcc
  else if Offset = 3 then
    let first := _mm256_blend_ps first second 7
    let tmp := _mm256_permute_ps first (_MM_SHUFFLE 2 1 0 3)
    _mm256_blend_ps tmp (_mm256_permute2f128_ps tmp tmp 1) 0xee
  else if Offset = 4 then
    let first := _mm256_blend_ps first second 15
    let tmp := _mm256_permute_ps first (_MM_SHUFFLE 3 2 1 0)
    _mm256_permute_ps (_mm256_permute2f128_ps tmp tmp 1) (_MM_SHUFFLE 3 2 1 0)
  else if Offset = 5 then
    let first := _mm256_blend_ps first second 31
    let first := _mm256_permute2f128_ps first first 1
    let tmp := _mm256_permute_ps first (_MM_SHUFFLE 0 3 2 1)
    let first := _mm256_permute2f128_ps tmp tmp 1
    _mm256_blend_ps tmp first 0x88
  else if Offset = 6 then
    let first := _mm256_blend_ps first second 63
    let first := _mm256_permute2f128_ps first first 1
    let tmp := _mm256_permute_ps first (_MM_SHUFFLE 1 0 3 2)
    let first := _mm256_permute2f128_ps tmp tmp 1
    _mm256_blend_ps tmp first 0xcc
  else if Offset = 7 then
    let first := _mm256_blend_ps first second 127
    let first := _mm256_permute2f128_ps first first 1
    let tmp := _mm256_permute_ps first (_MM_SHUFFLE 2 1 0 3)
    let first := _mm256_permute2f128_ps tmp tmp 1
    _mm256_blend_ps tmp first 0xee
  else first

/-- Template `palign_impl<Offset,Packet4d>::run(first, second)`; the value is the content of
`first` after the call. -/
def palign_impl_Packet4d_run (Offset : Int) (first second : Packet4d α) : Packet4d α :=
  if Offset = 1 then
    let first := _mm256_blend_pd first second 1
    let tmp := _mm256_permute_pd first 5
    let first := _mm256_permute2f128_pd tmp tmp 1
    _mm256_blend_pd tmp first 0xA
  else if Offset = 2 then
    let first := _mm256_blend_pd first second 3
    _mm256_permute2f128_pd first first 1
  else if Offset = 3 then
    let first := _mm256_blend_pd first second 7
    let tmp := _mm256_permute_pd first 5
    let first := _mm256_permute2f128_pd tmp tmp 1
    _mm256_blend_pd tmp first 5
  else first

end Palign

/-! ## A scalar model with a rounding addition -/

/-- A scalar whose addition rounds: the sum is halved towards zero.  The addition is
commutative and not associative, as a rounding floating-point addition is. -/
structure Rounded where
  val : Nat
  deriving DecidableEq, Repr

instance : Zero Rounded := ⟨⟨0⟩⟩
instance : Add Rounded := ⟨fun x y => ⟨(x.val + y.val) / 2⟩⟩

/-! ## Integer packets, assertions and bit patterns -/

/-- Packet of eight 32-bit integer lanes (`typedef __m256i Packet8i`); `x0` is bits `[31:0]`. -/
structure Packet8i (α : Type) where
  x0 : α
  x1 : α
  x2 : α
  x3 : α
  x4 : α
  x5 : α
  x6 : α
  x7 : α
  deriving DecidableEq, Repr

/-- A 128-bit register of four 32-bit integers (`__m128i`). -/
structure M128i (α : Type) where
  x0 : α
  x1 : α
  x2 : α
  x3 : α
  deriving DecidableEq, Repr

section Integer
variable {α : Type}

/-- Lane `i` of an eight-lane integer packet. -/
def Packet8i.lane (a : Packet8i α) (i : Fin 8) : α :=
  match i.val with
  | 0 => a.x0
  | 1 => a.x1
  | 2 => a.x2
  | 3 => a.x3
  | 4 => a.x4
  | 5 => a.x5
  | 6 => a.x6
  | _ => a.x7

/-- Intrinsic `_mm256_set1_epi32(a)`: the integer `a` in all eight lanes. -/
def _mm256_set1_epi32 (a : α) : Packet8i α := ⟨a, a, a, a, a, a, a, a⟩

/-- Intrinsic `_mm256_setr_epi32(e0, ..., e7)`: `e0` in the lowest lane; each argument is
converted to a 32-bit word, here its bit pattern `e % 2^32`. -/
def _mm256_setr_epi32 (e0 e1 e2 e3 e4 e5 e6 e7 : Nat) : Packet8i Nat :=
  ⟨e0 % 2 ^ 32, e1 % 2 ^ 32, e2 % 2 ^ 32, e3 % 2 ^ 32,
   e4 % 2 ^ 32, e5 % 2 ^ 32, e6 % 2 ^ 32, e7 % 2 ^ 32⟩

/-- Intrinsic `_mm256_castsi256_ps(a)`: the same 256 bits read as eight 32-bit lanes. -/
def _mm256_castsi256_ps (a : Packet8i Nat) : Packet8f Nat :=
  ⟨a.x0, a.x1, a.x2, a.x3, a.x4, a.x5, a.x6, a.x7⟩

/-- Intrinsic `_mm256_castsi256_pd(a)`: the same 256 bits read as four 64-bit lanes; the
32-bit word at the lower position is the low half of the 64-bit lane. -/
def _mm256_castsi256_pd (a : Packet8i Nat) : Packet4d Nat :=
  ⟨a.x0 ||| (a.x1 <<< 32), a.x2 ||| (a.x3 <<< 32),
   a.x4 ||| (a.x5 <<< 32), a.x6 ||| (a.x7 <<< 32)⟩

/-- Intrinsic `_mm256_castsi256_si128(a)`: the low 128 bits. -/
def _mm256_castsi256_si128 (a : Packet8i α) : M128i α := ⟨a.x0, a.x1, a.x2, a.x3⟩

/-- Intrinsic `_mm_cvtsi128_si32(a)`: the lowest 32-bit integer of a 128-bit register. -/
def _mm_cvtsi128_si32 (a : M128i α) : α := a.x0

/-- Intrinsic `_mm256_and_ps(a, b)` on the bit patterns of the lanes:
`dst[i+31:i] := a[i+31:i] AND b[i+31:i]`. -/
def _mm256_and_ps (a b : Packet8f Nat) : Packet8f Nat :=
  ⟨a.x0 &&& b.x0, a.x1 &&& b.x1, a.x2 &&& b.x2, a.x3 &&& b.x3,
   a.x4 &&& b.x4, a.x5 &&& b.x5, a.x6 &&& b.x6, a.x7 &&& b.x7⟩

/-- Intrinsic `_mm256_and_pd(a, b)` on the bit patterns of the lanes:
`dst[i+63:i] := a[i+63:i] AND b[i+63:i]`. -/
def _mm256_and_pd (a b : Packet4d Nat) : Packet4d Nat :=
  ⟨a.x0 &&& b.x0, a.x1 &&& b.x1, a.x2 &&& b.x2, a.x3 &&& b.x3⟩

/-- Bitwise complement of a `w`-bit pattern. -/
def NOT (w x : Nat) : Nat := 2 ^ w - 1 - x % 2 ^ w

/-- Intrinsic `_mm256_andnot_ps(a, b)` on the bit patterns of the lanes:
`dst[i+31:i] := ((NOT a[i+31:i]) AND b[i+31:i])`. -/
def _mm256_andnot_ps (a b : Packet8f Nat) : Packet8f Nat :=
  ⟨NOT 32 a.x0 &&& b.x0, NOT 32 a.x1 &&& b.x1, NOT 32 a.x2 &&& b.x2, NOT 32 a.x3 &&& b.x3,
   NOT 32 a.x4 &&& b.x4, NOT 32 a.x5 &&& b.x5, NOT 32 a.x6 &&& b.x6, NOT 32 a.x7 &&& b.x7⟩

/-- Intrinsic `_mm256_andnot_pd(a, b)` on the bit patterns of the lanes:
`dst[i+63:i] := ((NOT a[i+63:i]) AND b[i+63:i])`. -/
def _mm256_andnot_pd (a b : Packet4d Nat) : Packet4d Nat :=
  ⟨NOT 64 a.x0 &&& b.x0, NOT 64 a.x1 &&& b.x1, NOT 64 a.x2 &&& b.x2, NOT 64 a.x3 &&& b.x3⟩

/-- Specialisation `pset1<Packet8i>(from)`. -/
def pset1_Packet8i (from_ : α) : Packet8i α := _mm256_set1_epi32 from_

/-- Specialisation `pfirst<Packet8i>(a)`. -/
def pfirst_Packet8i (a : Packet8i α) : α := _mm_cvtsi128_si32 (_mm256_castsi256_si128 a)

/-- Modelled from the spec: the macro `eigen_assert` is not defined in this header.  An
assertion whose condition is false is fatal where assertions are enabled (debug builds)
and has no effect where they are disabled; a true condition never has an effect. -/
def eigen_assert (assertions : Bool) (condition : Bool) (message : String) :
    Except String Unit :=
  if assertions && !condition then Except.error message else Except.ok ()

/-- Specialisation `pdiv<Packet8i>(a, b)`: `eigen_assert(false && "...")`, then
`return pset1<Packet8i>(0)`.  A string literal is a non-null pointer, so the condition
`false && "..."` is `false && true`. -/
def pdiv_Packet8i (assertions : Bool) (_a _b : Packet8i Int) : Except String (Packet8i Int) :=
  match eigen_assert assertions (false && true)
      "packet integer division are not supported by AVX" with
  | Except.error e => Except.error e
  | Except.ok () => Except.ok (pset1_Packet8i 0)

/-- Specialisation `pabs(const Packet8f&)` on the bit patterns of the lanes. -/
def pabs_Packet8f (a : Packet8f Nat) : Packet8f Nat :=
  let mask := _mm256_castsi256_ps (_mm256_setr_epi32 0x7FFFFFFF 0x7FFFFFFF 0x7FFFFFFF
    0x7FFFFFFF 0x7FFFFFFF 0x7FFFFFFF 0x7FFFFFFF 0x7FFFFFFF)
  _mm256_and_ps a mask

/-- Specialisation `pabs(const Packet4d&)` on the bit patterns of the lanes. -/
def pabs_Packet4d (a : Packet4d Nat) : Packet4d Nat :=
  let mask := _mm256_castsi256_pd (_mm256_setr_epi32 0xFFFFFFFF 0x7FFFFFFF 0xFFFFFFFF
    0x7FFFFFFF 0xFFFFFFFF 0x7FFFFFFF 0xFFFFFFFF 0x7FFFFFFF)
  _mm256_and_pd a mask

/-- Specialisation `pandnot<Packet8f>(a, b)` on the bit patterns of the lanes. -/
def pandnot_Packet8f (a b : Packet8f Nat) : Packet8f Nat := _mm256_andnot_ps a b

/-- Specialisation `pandnot<Packet4d>(a, b)` on the bit patterns of the lanes. -/
def pandnot_Packet4d (a b : Packet4d Nat) : Packet4d Nat := _mm256_andnot_pd a b

end Integer

/-! ## Minimum and maximum of the lanes -/

section MinMax
variable {α : Type} [LT α] [DecidableRel (fun x y : α => x < y)]

/-- Specialisation `predux_min<Packet8f>(a)`: `result = a[0]`, then for `i = 1, ..., 7`
`if (a[i] < result) result = a[i]`. -/
def predux_min_Packet8f (a : Packet8f α) : α :=
  ([1, 2, 3, 4, 5, 6, 7] : List (Fin 8)).foldl
    (fun result i => if a.lane i < result then a.lane i else result) (a.lane 0)

/-- Specialisation `predux_min<Packet4d>(a)`: `result = a[0]`, then for `i = 1, 2, 3`
`if (a[i] < result) result = a[i]`. -/
def predux_min_Packet4d (a : Packet4d α) : α :=
  ([1, 2, 3] : List (Fin 4)).foldl
    (fun result i => if a.lane i < result then a.lane i else result) (a.lane 0)

/-- Specialisation `predux_max<Packet8f>(a)`: `result = a[0]`, then for `i = 1, ..., 7`
`if (a[i] > result) result = a[i]`. -/
def predux_max_Packet8f (a : Packet8f α) : α :=
  ([1, 2, 3, 4, 5, 6, 7] : List (Fin 8)).foldl
    (fun result i => if a.lane i > result then a.lane i else result) (a.lane 0)

/-- Specialisation `predux_max<Packet4d>(a)`: `result = a[0]`, then for `i = 1, 2, 3`
`if (a[i] > result) result = a[i]`. -/
def predux_max_Packet4d (a : Packet4d α) : α :=
  ([1, 2, 3] : List (Fin 4)).foldl
    (fun result i => if a.lane i > result then a.lane i else result) (a.lane 0)

end MinMax

section Reorder
variable {α : Type}

/-- The eight-lane packet whose lane `i` is lane `σ i` of `a`. -/
def Packet8f.reorder (a : Packet8f α) (σ : Fin 8 → Fin 8) : Packet8f α :=
  ⟨a.lane (σ 0), a.lane (σ 1), a.lane (σ 2), a.lane (σ 3),
   a.lane (σ 4), a.lane (σ 5), a.lane (σ 6), a.lane (σ 7)⟩

/-- The four-lane packet whose lane `i` is lane `σ i` of `a`. -/
def Packet4d.reorder (a : Packet4d α) (σ : Fin 4 → Fin 4) : Packet4d α :=
  ⟨a.lane (σ 0), a.lane (σ 1), a.lane (σ 2), a.lane (σ 3)⟩

end Reorder

/-! ## Aligned load, store and addition -/

section LoadStore
variable {α : Type}

/-- Intrinsic `_mm256_load_ps(mem_addr)`: the eight consecutive floats at `from_`, the lowest
address in lane 0.  `addr` is the byte address of element 0 of the array and a float takes
four bytes; the instruction faults unless `mem_addr` is a multiple of 32, so the load is
defined when the address is aligned and the eight floats are inside the array. -/
def _mm256_load_ps (addr : Nat) (mem : List α) (from_ : Nat) : Option (Packet8f α) :=
  if (addr + 4 * from_) % 32 = 0 then
    if h : from_ + 8 ≤ mem.length then
      some ⟨mem.get ⟨from_, by omega⟩, mem.get ⟨from_ + 1, by omega⟩,
            mem.get ⟨from_ + 2, by omega⟩, mem.get ⟨from_ + 3, by omega⟩,
            mem.get ⟨from_ + 4, by omega⟩, mem.get ⟨from_ + 5, by omega⟩,
            mem.get ⟨from_ + 6, by omega⟩, mem.get ⟨from_ + 7, by omega⟩⟩
    else none
  else none

/-- Intrinsic `_mm256_load_pd(mem_addr)`: the four consecutive doubles at `from_`; a double
takes eight bytes, and the instruction faults unless `mem_addr` is a multiple of 32. -/
def _mm256_load_pd (addr : Nat) (mem : List α) (from_ : Nat) : Option (Packet4d α) :=
  if (addr + 8 * from_) % 32 = 0 then
    if h : from_ + 4 ≤ mem.length then
      some ⟨mem.get ⟨from_, by omega⟩, mem.get ⟨from_ + 1, by omega⟩,
            mem.get ⟨from_ + 2, by omega⟩, mem.get ⟨from_ + 3, by omega⟩⟩
    else none
  else none

/-- Intrinsic `_mm256_store_ps(mem_addr, a)`: lane `j` of `a` is written to `to_ + j`; the
value is the memory after the store.  The instruction faults unless `mem_addr` is a
multiple of 32, so the store is defined when the address is aligned and the eight floats
are inside the array. -/
def _mm256_store_ps (addr : Nat) (mem : List α) (to_ : Nat) (a : Packet8f α) :
    Option (List α) :=
  if (addr + 4 * to_) % 32 = 0 then
    if to_ + 8 ≤ mem.length then
      some ((((((((mem.set to_ a.x0).set (to_ + 1) a.x1).set (to_ + 2) a.x2).set
        (to_ + 3) a.x3).set (to_ + 4) a.x4).set (to_ + 5) a.x5).set (to_ + 6) a.x6).set
        (to_ + 7) a.x7)
    else none
  else none

/-- Intrinsic `_mm256_store_pd(mem_addr, a)`: lane `j` of `a` is written to `to_ + j`; the
instruction faults unless `mem_addr` is a multiple of 32. -/
def _mm256_store_pd (addr : Nat) (mem : List α) (to_ : Nat) (a : Packet4d α) :
    Option (List α) :=
  if (addr + 8 * to_) % 32 = 0 then
    if to_ + 4 ≤ mem.length then
      some ((((mem.set to_ a.x0).set (to_ + 1) a.x1).set (to_ + 2) a.x2).set (to_ + 3) a.x3)
    else none
  else none

/-- Specialisation `pload<Packet8f>(from)`; `EIGEN_DEBUG_ALIGNED_LOAD` expands to nothing. -/
def pload_Packet8f (addr : Nat) (mem : List α) (from_ : Nat) : Option (Packet8f α) :=
  _mm256_load_ps addr mem from_

/-- Specialisation `pload<Packet4d>(from)`. -/
def pload_Packet4d (addr : Nat) (mem : List α) (from_ : Nat) : Option (Packet4d α) :=
  _mm256_load_pd addr mem from_

/-- Specialisation `pstore<float>(to, from)`; `EIGEN_DEBUG_ALIGNED_STORE` expands to nothing. -/
def pstore_float (addr : Nat) (mem : List α) (to_ : Nat) (from_ : Packet8f α) :
    Option (List α) :=
  _mm256_store_ps addr mem to_ from_

/-- Specialisation `pstore<double>(to, from)`. -/
def pstore_double (addr : Nat) (mem : List α) (to_ : Nat) (from_ : Packet4d α) :
    Option (List α) :=
  _mm256_store_pd addr mem to_ from_

/-- Specialisation `padd<Packet8f>(a, b)`. -/
def padd_Packet8f [Add α] (a b : Packet8f α) : Packet8f α := _mm256_add_ps a b

/-- Specialisation `padd<Packet4d>(a, b)`. -/
def padd_Packet4d [Add α] (a b : Packet4d α) : Packet4d α := _mm256_add_pd a b

/-- The call sequence `pstore(z + tz, padd(pload<Packet8f>(x + fx), pload<Packet8f>(y + fy)))`
for arrays `x`, `y`, `z` at the byte addresses `xaddr`, `yaddr`, `zaddr`; the value is the
array `z` after the store. -/
def padd_stored_float [Add α] (xaddr : Nat) (x : List α) (fx : Nat) (yaddr : Nat) (y : List α)
    (fy : Nat) (zaddr : Nat) (z : List α) (tz : Nat) : Option (List α) :=
  (pload_Packet8f xaddr x fx).bind fun a =>
    (pload_Packet8f yaddr y fy).bind fun b => pstore_float zaddr z tz (padd_Packet8f a b)

/-- The call sequence `pstore(z + tz, padd(pload<Packet4d>(x + fx), pload<Packet4d>(y + fy)))`
for arrays `x`, `y`, `z` at the byte addresses `xaddr`, `yaddr`, `zaddr`; the value is the
array `z` after the store. -/
def padd_stored_double [Add α] (xaddr : Nat) (x : List α) (fx : Nat) (yaddr : Nat) (y : List α)
    (fy : Nat) (zaddr : Nat) (z : List α) (tz : Nat) : Option (List α) :=
  (pload_Packet4d xaddr x fx).bind fun a =>
    (pload_Packet4d yaddr y fy).bind fun b => pstore_double zaddr z tz (padd_Packet4d a b)

end LoadStore

/-! ## Trait descriptors -/

/-- The scalar types that the descriptors name. -/
inductive ScalarType where
  | float
  | double
  | int
  deriving DecidableEq, Repr

/-- The packet types of this header. -/
inductive PacketType where
  | Packet8f
  | Packet4d
  | Packet8i
  deriving DecidableEq, Repr

/-- The members that a `packet_traits` specialisation of this header declares: the `type`
typedef and the enumerators common to both specialisations. -/
structure PacketTraits where
  type : PacketType
  Vectorizable : Nat
  AlignedOnScalar : Nat
  size : Nat
  HasDiv : Nat
  HasExp : Nat
  deriving DecidableEq, Repr

/-- The members of an `unpacket_traits` specialisation. -/
structure UnpacketTraits where
  type : ScalarType
  size : Nat
  deriving DecidableEq, Repr

/-- Specialisations `packet_traits<float>` and `packet_traits<double>`; the specialisation for
`int` is commented out in the header, so this header declares none for it. -/
def packet_traits : ScalarType → Option PacketTraits
  | ScalarType.float => some ⟨PacketType.Packet8f, 1, 1, 8, 1, 0⟩
  | ScalarType.double => some ⟨PacketType.Packet4d, 1, 1, 4, 1, 0⟩
  | ScalarType.int => none

/-- Specialisations `unpacket_traits<Packet8f>`, `<Packet4d>` and `<Packet8i>`. -/
def unpacket_traits : PacketType → UnpacketTraits
  | PacketType.Packet8f => ⟨ScalarType.float, 8⟩
  | PacketType.Packet4d => ⟨ScalarType.double, 4⟩
  | PacketType.Packet8i => ⟨ScalarType.int, 8⟩

/-! ## The statements after the `return` of `preverse<Packet4d>` -/

/-- The two statements that follow the first `return` in `preverse(const Packet4d&)`:
`swap_halves = _mm256_permute2f128_pd(a,a,1); return _mm256_permute_pd(swap_halves,5);`.
They are never executed; this is the value they would compute. -/
def preverse_Packet4d_unreachable {α : Type} [Zero α] (a : Packet4d α) : Packet4d α :=
  let swap_halves := _mm256_permute2f128_pd a a 1
  _mm256_permute_pd swap_halves 5

/-! ## Realignment: lane semantics -/

section Theorems
variable {α : Type} [Zero α]

/-- C1: for every shift `K` with `1 ≤ K ≤ 7`, `palign_impl<K,Packet8f>::run` leaves in `first`
the packet whose lane `i` is the original `first` lane `i+K` when `i < 8-K` and `second`
lane `i+K-8` otherwise. -/
theorem palign_impl_Packet8f_run_lane (K : Nat) (h1 : 1 ≤ K) (h7 : K ≤ 7)
    (first second : Packet8f α) (i : Fin 8) :
    (palign_impl_Packet8f_run (K : Int) first second).lane i =
      if h : i.val < 8 - K then first.lane ⟨i.val + K, by omega⟩
      else second.lane ⟨i.val + K - 8, by omega⟩ := by
  interval_cases K <;> fin_cases i <;> rfl

/-- Witness of C1 at shift 3, lanes 2 and 6. -/
theorem palign_impl_Packet8f_run_lane_witness :
    (1 ≤ 3 ∧ 3 ≤ 7) ∧
      (palign_impl_Packet8f_run ((3 : Nat) : Int) ⟨10, 11, 12, 13, 14, 15, 16, 17⟩
        ⟨20, 21, 22, 23, 24, 25, 26, 27⟩).lane 2 = (15 : Nat) ∧
      (palign_impl_Packet8f_run ((3 : Nat) : Int) ⟨10, 11, 12, 13, 14, 15, 16, 17⟩
        ⟨20, 21, 22, 23, 24, 25, 26, 27⟩).lane 6 = (21 : Nat) :=
  ⟨by decide,
   (palign_impl_Packet8f_run_lane 3 (by decide) (by decide) _ _ 2).trans (by decide),
   (palign_impl_Packet8f_run_lane 3 (by decide) (by decide) _ _ 6).trans (by decide)⟩

/-- C2: for every shift `K` with `1 ≤ K ≤ 3`, `palign_impl<K,Packet4d>::run` leaves in `first`
the packet whose lane `i` is the original `first` lane `i+K` when `i < 4-K` and `second`
lane `i+K-4` otherwise. -/
theorem palign_impl_Packet4d_run_lane (K : Nat) (h1 : 1 ≤ K) (h3 : K ≤ 3)
    (first second : Packet4d α) (i : Fin 4) :
    (palign_impl_Packet4d_run (K : Int) first second).lane i =
      if h : i.val < 4 - K then first.lane ⟨i.val + K, by omega⟩
      else second.lane ⟨i.val + K - 4, by omega⟩ := by
  interval_cases K <;> fin_cases i <;> rfl

/-- Witness of C2 at shift 3, lanes 0 and 1. -/
theorem palign_impl_Packet4d_run_lane_witness :
    (1 ≤ 3 ∧ 3 ≤ 3) ∧
      (palign_impl_Packet4d_run ((3 : Nat) : Int) ⟨10, 11, 12, 13⟩ ⟨20, 21, 22, 23⟩).lane 0
        = (13 : Nat) ∧
      (palign_impl_Packet4d_run ((3 : Nat) : Int) ⟨10, 11, 12, 13⟩ ⟨20, 21, 22, 23⟩).lane 1
        = (20 : Nat) :=
  ⟨by decide,
   (palign_impl_Packet4d_run_lane 3 (by decide) (by decide) _ _ 0).trans (by decide),
   (palign_impl_Packet4d_run_lane 3 (by decide) (by decide) _ _ 1).trans (by decide)⟩

/-! ## Pairwise reduction of several packets -/

/-- C3: lane `i` of `preduxp<Packet8f>(vecs)` is `predux<Packet8f>(vecs[i])`, the same scalar,
as soon as the lane addition is commutative; associativity is not used. -/
theorem preduxp_Packet8f_lane [Add α] (hcomm : ∀ x y : α, x + y = y + x)
    (vecs : Fin 8 → Packet8f α) (i : Fin 8) :
    (preduxp_Packet8f vecs).lane i = predux_Packet8f (vecs i) := by
  fin_cases i
  · exact hcomm _ _
  · exact hcomm _ _
  · exact hcomm _ _
  · exact hcomm _ _
  · rfl
  · rfl
  · rfl
  · rfl

/-- C4: lane `i` of `preduxp<Packet4d>(vecs)` is `predux<Packet4d>(vecs[i])`, the same scalar,
as soon as the lane addition is commutative; associativity is not used. -/
theorem preduxp_Packet4d_lane [Add α] (hcomm : ∀ x y : α, x + y = y + x)
    (vecs : Fin 4 → Packet4d α) (i : Fin 4) :
    (preduxp_Packet4d vecs).lane i = predux_Packet4d (vecs i) := by
  fin_cases i
  · rfl
  · rfl
  · exact hcomm _ _
  · exact hcomm _ _

/-- The rounding addition of `Rounded` is commutative. -/
theorem Rounded.add_comm (x y : Rounded) : x + y = y + x :=
  congrArg Rounded.mk (congrArg (· / 2) (Nat.add_comm x.val y.val))

/-- Witness of C3 with the rounding addition of `Rounded`, which is not associative, at a
lane of the upper half and a lane of the lower half. -/
theorem preduxp_Packet8f_lane_witness :
    (∀ x y : Rounded, x + y = y + x) ∧
      ((⟨0⟩ + ⟨0⟩ : Rounded) + ⟨4⟩ ≠ ⟨0⟩ + (⟨0⟩ + ⟨4⟩)) ∧
      (preduxp_Packet8f (fun k => (⟨⟨k.val⟩, ⟨3⟩, ⟨k.val * k.val⟩, ⟨8⟩, ⟨1⟩, ⟨20⟩, ⟨7⟩,
          ⟨2 * k.val⟩⟩ : Packet8f Rounded))).lane 5 =
        predux_Packet8f (⟨⟨5⟩, ⟨3⟩, ⟨25⟩, ⟨8⟩, ⟨1⟩, ⟨20⟩, ⟨7⟩, ⟨10⟩⟩ : Packet8f Rounded) ∧
      (preduxp_Packet8f (fun k => (⟨⟨k.val⟩, ⟨3⟩, ⟨k.val * k.val⟩, ⟨8⟩, ⟨1⟩, ⟨20⟩, ⟨7⟩,
          ⟨2 * k.val⟩⟩ : Packet8f Rounded))).lane 2 =
        predux_Packet8f (⟨⟨2⟩, ⟨3⟩, ⟨4⟩, ⟨8⟩, ⟨1⟩, ⟨20⟩, ⟨7⟩, ⟨4⟩⟩ : Packet8f Rounded) :=
  ⟨Rounded.add_comm, by decide, preduxp_Packet8f_lane Rounded.add_comm _ 5,
   preduxp_Packet8f_lane Rounded.add_comm _ 2⟩

/-- Witness of C4 with the rounding addition of `Rounded`, at a lane of the lower half and
a lane of the upper half. -/
theorem preduxp_Packet4d_lane_witness :
    (∀ x y : Rounded, x + y = y + x) ∧
      (preduxp_Packet4d (fun k => (⟨⟨k.val⟩, ⟨3⟩, ⟨k.val * k.val⟩, ⟨8⟩⟩ :
          Packet4d Rounded))).lane 1 =
        predux_Packet4d (⟨⟨1⟩, ⟨3⟩, ⟨1⟩, ⟨8⟩⟩ : Packet4d Rounded) ∧
      (preduxp_Packet4d (fun k => (⟨⟨k.val⟩, ⟨3⟩, ⟨k.val * k.val⟩, ⟨8⟩⟩ :
          Packet4d Rounded))).lane 3 =
        predux_Packet4d (⟨⟨3⟩, ⟨3⟩, ⟨9⟩, ⟨8⟩⟩ : Packet4d Rounded) :=
  ⟨Rounded.add_comm, preduxp_Packet4d_lane Rounded.add_comm _ 1,
   preduxp_Packet4d_lane Rounded.add_comm _ 3⟩

/-! ## Horizontal reductions of one packet -/

/-- C5: over a commutative additive monoid, `predux<Packet8f>(a)` is `a0+a1+...+a7` and
`predux<Packet4d>(a)` is `a0+a1+a2+a3`, the sum over all lanes, each counted once. -/
theorem predux_eq_sum {β : Type} [AddCommMonoid β] :
    (∀ a : Packet8f β,
      predux_Packet8f a = a.x0 + a.x1 + a.x2 + a.x3 + a.x4 + a.x5 + a.x6 + a.x7 ∧
      predux_Packet8f a = ∑ i : Fin 8, a.lane i) ∧
    (∀ a : Packet4d β,
      predux_Packet4d a = a.x0 + a.x1 + a.x2 + a.x3 ∧
      predux_Packet4d a = ∑ i : Fin 4, a.lane i) := by
  refine ⟨fun a => ?_, fun a => ?_⟩
  · have h : predux_Packet8f a =
        ((a.x0 + a.x1) + (a.x2 + a.x3)) + ((a.x4 + a.x5) + (a.x6 + a.x7)) := rfl
    have hs : ∑ i : Fin 8, a.lane i =
        a.x0 + a.x1 + a.x2 + a.x3 + a.x4 + a.x5 + a.x6 + a.x7 := by
      rw [Fin.sum_univ_eight]; rfl
    rw [hs, h]
    exact ⟨by abel, by abel⟩
  · have h : predux_Packet4d a = (a.x0 + a.x1) + (a.x2 + a.x3) := rfl
    have hs : ∑ i : Fin 4, a.lane i = a.x0 + a.x1 + a.x2 + a.x3 := by
      rw [Fin.sum_univ_four]; rfl
    rw [hs, h]
    exact ⟨by abel, by abel⟩

/-- C6: over a commutative multiplicative monoid, `predux_mul<Packet8f>(a)` is `a0*a1*...*a7`
and `predux_mul<Packet4d>(a)` is `a0*a1*a2*a3`, the product over all lanes, each counted
once. -/
theorem predux_mul_eq_prod {β : Type} [CommMonoid β] [Zero β] :
    (∀ a : Packet8f β,
      predux_mul_Packet8f a = a.x0 * a.x1 * a.x2 * a.x3 * a.x4 * a.x5 * a.x6 * a.x7 ∧
      predux_mul_Packet8f a = ∏ i : Fin 8, a.lane i) ∧
    (∀ a : Packet4d β,
      predux_mul_Packet4d a = a.x0 * a.x1 * a.x2 * a.x3 ∧
      predux_mul_Packet4d a = ∏ i : Fin 4, a.lane i) := by
  refine ⟨fun a => ?_, fun a => ?_⟩
  · have h : predux_mul_Packet8f a =
        ((a.x0 * a.x4) * (a.x2 * a.x6)) * ((a.x1 * a.x5) * (a.x3 * a.x7)) := rfl
    have hs : ∏ i : Fin 8, a.lane i =
        a.x0 * a.x1 * a.x2 * a.x3 * a.x4 * a.x5 * a.x6 * a.x7 := by
      rw [Fin.prod_univ_eight]; rfl
    rw [hs, h]
    refine ⟨?_, ?_⟩ <;> simp only [mul_assoc, mul_left_comm, mul_comm]
  · have h : predux_mul_Packet4d a = (a.x0 * a.x2) * (a.x1 * a.x3) := rfl
    have hs : ∏ i : Fin 4, a.lane i = a.x0 * a.x1 * a.x2 * a.x3 := by
      rw [Fin.prod_univ_four]; rfl
    rw [hs, h]
    refine ⟨?_, ?_⟩ <;> simp only [mul_assoc, mul_left_comm, mul_comm]

/-- C7: with arbitrary binary operations in place of `+` and `*` (no law assumed), `predux`
and `predux_mul` are balanced pairwise trees, not left-to-right chains:
`predux<Packet8f>(a)` is `((a0+a1)+(a2+a3))+((a4+a5)+(a6+a7))`, `predux<Packet4d>(a)` is
`(a0+a1)+(a2+a3)`, `predux_mul<Packet8f>(a)` is `((a0*a4)*(a2*a6))*((a1*a5)*(a3*a7))` and
`predux_mul<Packet4d>(a)` is `(a0*a2)*(a1*a3)`; every lane is under exactly three,
respectively two, operations. -/
theorem predux_balanced_tree {β : Type} [Zero β] [Add β] [Mul β] :
    (∀ a : Packet8f β, predux_Packet8f a =
        ((a.x0 + a.x1) + (a.x2 + a.x3)) + ((a.x4 + a.x5) + (a.x6 + a.x7))) ∧
    (∀ a : Packet4d β, predux_Packet4d a = (a.x0 + a.x1) + (a.x2 + a.x3)) ∧
    (∀ a : Packet8f β, predux_mul_Packet8f a =
        ((a.x0 * a.x4) * (a.x2 * a.x6)) * ((a.x1 * a.x5) * (a.x3 * a.x7))) ∧
    (∀ a : Packet4d β, predux_mul_Packet4d a = (a.x0 * a.x2) * (a.x1 * a.x3)) :=
  ⟨fun _ => rfl, fun _ => rfl, fun _ => rfl, fun _ => rfl⟩

/-! ## Reverse -/

/-- C8: `preverse` inverts the lane order: lane `i` of `preverse<Packet8f>(a)` is lane `7-i`
of `a`, and lane `i` of `preverse<Packet4d>(a)` is lane `3-i` of `a`. -/
theorem preverse_lane :
    (∀ (a : Packet8f α) (i : Fin 8),
      (preverse_Packet8f a).lane i = a.lane ⟨7 - i.val, by omega⟩) ∧
    (∀ (a : Packet4d α) (i : Fin 4),
      (preverse_Packet4d a).lane i = a.lane ⟨3 - i.val, by omega⟩) := by
  refine ⟨fun a i => ?_, fun a i => ?_⟩ <;> fin_cases i <;> rfl

/-- C9: `preverse` is an involution on both packet types. -/
theorem preverse_involution :
    (∀ a : Packet8f α, preverse_Packet8f (preverse_Packet8f a) = a) ∧
    (∀ a : Packet4d α, preverse_Packet4d (preverse_Packet4d a) = a) :=
  ⟨fun _ => rfl, fun _ => rfl⟩

/-! ## Broadcast-duplicate load -/

/-- C10: when the load that `ploaddup` performs is inside the array, the result holds source
scalar `i` in lanes `2i` and `2i+1`: `{x0,x0,x1,x1,x2,x2,x3,x3}` for floats and
`{x0,x0,x1,x1}` for doubles, `xi = from[i]`; two arrays that agree on `from[0..3]` (floats)
or `from[0..1]` (doubles) give the same packet whatever the later elements are. -/
theorem ploaddup_lanes (mem : List α) (from_ : Nat) :
    (∀ h : from_ + 8 ≤ mem.length,
      ploaddup_Packet8f mem from_ =
        some ⟨mem.get ⟨from_, by omega⟩, mem.get ⟨from_, by omega⟩,
              mem.get ⟨from_ + 1, by omega⟩, mem.get ⟨from_ + 1, by omega⟩,
              mem.get ⟨from_ + 2, by omega⟩, mem.get ⟨from_ + 2, by omega⟩,
              mem.get ⟨from_ + 3, by omega⟩, mem.get ⟨from_ + 3, by omega⟩⟩) ∧
    (∀ h : from_ + 4 ≤ mem.length,
      ploaddup_Packet4d mem from_ =
        some ⟨mem.get ⟨from_, by omega⟩, mem.get ⟨from_, by omega⟩,
              mem.get ⟨from_ + 1, by omega⟩, mem.get ⟨from_ + 1, by omega⟩⟩) ∧
    (∀ (mem2 : List α) (from2 : Nat), from_ + 8 ≤ mem.length → from2 + 8 ≤ mem2.length →
      (∀ k, k < 4 → mem[from_ + k]? = mem2[from2 + k]?) →
      ploaddup_Packet8f mem from_ = ploaddup_Packet8f mem2 from2) ∧
    (∀ (mem2 : List α) (from2 : Nat), from_ + 4 ≤ mem.length → from2 + 4 ≤ mem2.length →
      (∀ k, k < 2 → mem[from_ + k]? = mem2[from2 + k]?) →
      ploaddup_Packet4d mem from_ = ploaddup_Packet4d mem2 from2) := by
  have key : ∀ (m1 m2 : List α) (i j : Nat) (hi : i < m1.length) (hj : j < m2.length),
      m1[i]? = m2[j]? → m1.get ⟨i, hi⟩ = m2.get ⟨j, hj⟩ := by
    intro m1 m2 i j hi hj h
    rw [List.getElem?_eq_getElem hi, List.getElem?_eq_getElem hj] at h
    exact Option.some.inj h
  refine ⟨fun h => ?_, fun h => ?_, fun mem2 from2 h h2 hk => ?_, fun mem2 from2 h h2 hk => ?_⟩
  · simp only [ploaddup_Packet8f, ploadu_Packet8f, _mm256_loadu_ps, dif_pos h, Option.map_some']
    rfl
  · simp only [ploaddup_Packet4d, ploadu_Packet4d, _mm256_loadu_pd, dif_pos h, Option.map_some']
    rfl
  · have e0 := key mem mem2 (from_ + 0) (from2 + 0) (by omega) (by omega) (hk 0 (by omega))
    have e1 := key mem mem2 (from_ + 1) (from2 + 1) (by omega) (by omega) (hk 1 (by omega))
    have e2 := key mem mem2 (from_ + 2) (from2 + 2) (by omega) (by omega) (hk 2 (by omega))
    have e3 := key mem mem2 (from_ + 3) (from2 + 3) (by omega) (by omega) (hk 3 (by omega))
    simp only [Nat.add_zero] at e0
    simp only [ploaddup_Packet8f, ploadu_Packet8f, _mm256_loadu_ps, dif_pos h, dif_pos h2,
      Option.map_some']
    show some (Packet8f.mk _ _ _ _ _ _ _ _) = some (Packet8f.mk _ _ _ _ _ _ _ _)
    rw [e0, e1, e2, e3]
    rfl
  · have e0 := key mem mem2 (from_ + 0) (from2 + 0) (by omega) (by omega) (hk 0 (by omega))
    have e1 := key mem mem2 (from_ + 1) (from2 + 1) (by omega) (by omega) (hk 1 (by omega))
    simp only [Nat.add_zero] at e0
    simp only [ploaddup_Packet4d, ploadu_Packet4d, _mm256_loadu_pd, dif_pos h, dif_pos h2,
      Option.map_some']
    show some (Packet4d.mk _ _ _ _) = some (Packet4d.mk _ _ _ _)
    rw [e0, e1]
    rfl

/-- Witness of C10: loads at index 1 of an eleven-element array, and two arrays that differ
only after the scalars that are duplicated. -/
theorem ploaddup_lanes_witness :
    ploaddup_Packet8f [0, 1, 2, 3, 4, 5, 6, 7, 8, 9, 10] 1 =
        some (⟨1, 1, 2, 2, 3, 3, 4, 4⟩ : Packet8f Nat) ∧
      ploaddup_Packet4d [0, 1, 2, 3, 4, 5, 6, 7, 8, 9, 10] 1 =
        some (⟨1, 1, 2, 2⟩ : Packet4d Nat) ∧
      ploaddup_Packet8f [1, 2, 3, 4, 5, 6, 7, 8] 0 =
        ploaddup_Packet8f [9, 1, 2, 3, 4, 50, 60, 70, 80] 1 ∧
      ploaddup_Packet4d [1, 2, 3, 4] 0 = ploaddup_Packet4d [9, 1, 2, 30, 40] 1 :=
  ⟨(ploaddup_lanes [0, 1, 2, 3, 4, 5, 6, 7, 8, 9, 10] 1).1 (by decide),
   (ploaddup_lanes [0, 1, 2, 3, 4, 5, 6, 7, 8, 9, 10] 1).2.1 (by decide),
   (ploaddup_lanes [1, 2, 3, 4, 5, 6, 7, 8] 0).2.2.1 [9, 1, 2, 3, 4, 50, 60, 70, 80] 1
     (by decide) (by decide) (by decide),
   (ploaddup_lanes [1, 2, 3, 4] 0).2.2.2 [9, 1, 2, 30, 40] 1
     (by decide) (by decide) (by decide)⟩

/-! ## Read extent of the broadcast-duplicate load -/

/-- C11 at the failing input: with exactly four floats (two doubles) in bounds at `from`,
`ploaddup` does not succeed, because its first statement is the full-width `ploadu` that
reads eight floats (four doubles); with the whole packet in bounds the same scalars are
duplicated. -/
theorem ploaddup_reads_full_packet :
    ploaddup_Packet8f [(1 : Nat), 2, 3, 4] 0 = none ∧
      ploaddup_Packet4d [(1 : Nat), 2] 0 = none ∧
      ploaddup_Packet8f [(1 : Nat), 2, 3, 4, 0, 0, 0, 0] 0 = some ⟨1, 1, 2, 2, 3, 3, 4, 4⟩ ∧
      ploaddup_Packet4d [(1 : Nat), 2, 0, 0] 0 = some ⟨1, 1, 2, 2⟩ := by
  decide

/-! ## Absolute value -/

/-- Clearing with a mask of `n` low ones keeps the bits below `n` and clears the others. -/
theorem and_low_mask (x n : Nat) :
    x &&& (2 ^ n - 1) = x % 2 ^ n ∧
      ∀ k, (x &&& (2 ^ n - 1)).testBit k = (decide (k < n) && x.testBit k) := by
  refine ⟨Nat.and_pow_two_sub_one_eq_mod x n, fun k => ?_⟩
  rw [Nat.testBit_and, Nat.testBit_two_pow_sub_one, Bool.and_comm]

/-- C12: `pabs` clears the sign bit of every lane pattern and keeps the other bits: lane `i`
of `pabs<Packet8f>(a)` has bits 0..30 of `a_i` and bit 31 clear, lane `i` of
`pabs<Packet4d>(a)` has bits 0..62 of `a_i` and bit 63 clear; the 4d mask is
`0x7FFFFFFFFFFFFFFF` in every lane; the patterns of `[-1, 2, -3, 4, ...]` are mapped to the
patterns of `[1, 2, 3, 4, ...]`. -/
theorem pabs_clears_sign_bit :
    (∀ (a : Packet8f Nat) (i : Fin 8),
      (pabs_Packet8f a).lane i = a.lane i % 2 ^ 31 ∧
      ∀ k, ((pabs_Packet8f a).lane i).testBit k = (decide (k < 31) && (a.lane i).testBit k)) ∧
    (∀ (a : Packet4d Nat) (i : Fin 4),
      (pabs_Packet4d a).lane i = a.lane i % 2 ^ 63 ∧
      ∀ k, ((pabs_Packet4d a).lane i).testBit k = (decide (k < 63) && (a.lane i).testBit k)) ∧
    _mm256_castsi256_pd (_mm256_setr_epi32 0xFFFFFFFF 0x7FFFFFFF 0xFFFFFFFF 0x7FFFFFFF
        0xFFFFFFFF 0x7FFFFFFF 0xFFFFFFFF 0x7FFFFFFF) =
      ⟨0x7FFFFFFFFFFFFFFF, 0x7FFFFFFFFFFFFFFF, 0x7FFFFFFFFFFFFFFF, 0x7FFFFFFFFFFFFFFF⟩ ∧
    pabs_Packet8f ⟨0xBF800000, 0x40000000, 0xC0400000, 0x40800000,
        0xC0A00000, 0x40C00000, 0xC0E00000, 0x41000000⟩ =
      ⟨0x3F800000, 0x40000000, 0x40400000, 0x40800000,
        0x40A00000, 0x40C00000, 0x40E00000, 0x41000000⟩ ∧
    pabs_Packet4d ⟨0xBFF0000000000000, 0x4000000000000000, 0xC008000000000000,
        0x4010000000000000⟩ =
      ⟨0x3FF0000000000000, 0x4000000000000000, 0x4008000000000000, 0x4010000000000000⟩ := by
  refine ⟨fun a i => ?_, fun a i => ?_, by decide, by decide, by decide⟩
  · fin_cases i <;> exact and_low_mask _ 31
  · fin_cases i <;> exact and_low_mask _ 63

/-! ## Integer division -/

/-- C15: `pdiv<Packet8i>` fails its assertion for all operands where assertions are enabled,
and returns the packet of eight zero lanes, whatever the operands, where they are disabled. -/
theorem pdiv_Packet8i_not_supported (a b : Packet8i Int) :
    pdiv_Packet8i true a b =
        Except.error "packet integer division are not supported by AVX" ∧
      pdiv_Packet8i false a b = Except.ok ⟨0, 0, 0, 0, 0, 0, 0, 0⟩ :=
  ⟨rfl, rfl⟩

/-! ## First-lane extraction -/

/-- C17: `pfirst` is lane 0, and two packets of the same type that agree on lane 0 have the
same `pfirst`, whatever their other lanes hold (`Packet8f`, `Packet4d`, `Packet8i`). -/
theorem pfirst_lane_zero {β : Type} :
    (∀ a : Packet8f β, pfirst_Packet8f a = a.lane 0) ∧
    (∀ a : Packet4d β, pfirst_Packet4d a = a.lane 0) ∧
    (∀ a : Packet8i β, pfirst_Packet8i a = a.lane 0) ∧
    (∀ a b : Packet8f β, a.lane 0 = b.lane 0 → pfirst_Packet8f a = pfirst_Packet8f b) ∧
    (∀ a b : Packet4d β, a.lane 0 = b.lane 0 → pfirst_Packet4d a = pfirst_Packet4d b) ∧
    (∀ a b : Packet8i β, a.lane 0 = b.lane 0 → pfirst_Packet8i a = pfirst_Packet8i b) :=
  ⟨fun _ => rfl, fun _ => rfl, fun _ => rfl, fun _ _ h => h, fun _ _ h => h, fun _ _ h => h⟩

/-- Witness of C17: packets that agree on lane 0 only. -/
theorem pfirst_lane_zero_witness :
    pfirst_Packet8f (⟨5, 1, 2, 3, 4, 5, 6, 7⟩ : Packet8f Nat) =
        pfirst_Packet8f (⟨5, 9, 9, 9, 9, 9, 9, 9⟩ : Packet8f Nat) ∧
      pfirst_Packet4d (⟨5, 1, 2, 3⟩ : Packet4d Nat) =
        pfirst_Packet4d (⟨5, 9, 9, 9⟩ : Packet4d Nat) ∧
      pfirst_Packet8i (⟨5, 1, 2, 3, 4, 5, 6, 7⟩ : Packet8i Nat) =
        pfirst_Packet8i (⟨5, 9, 9, 9, 9, 9, 9, 9⟩ : Packet8i Nat) :=
  ⟨pfirst_lane_zero.2.2.2.1 _ _ rfl, pfirst_lane_zero.2.2.2.2.1 _ _ rfl,
   pfirst_lane_zero.2.2.2.2.2 _ _ rfl⟩

/-! ## Trait descriptors -/

/-- C18: `packet_traits<float>` has type `Packet8f` and size 8, `packet_traits<double>` has
type `Packet4d` and size 4, and for both scalar types `unpacket_traits` of the packet type
gives back the scalar type and the same size. -/
theorem packet_traits_unpacket_traits :
    (packet_traits ScalarType.float).map (fun t => (t.type, t.size)) =
        some (PacketType.Packet8f, 8) ∧
      (packet_traits ScalarType.double).map (fun t => (t.type, t.size)) =
        some (PacketType.Packet4d, 4) ∧
      ∀ (T : ScalarType) (t : PacketTraits), packet_traits T = some t →
        unpacket_traits t.type = ⟨T, t.size⟩ := by
  refine ⟨rfl, rfl, fun T t h => ?_⟩
  cases T
  · cases h; rfl
  · cases h; rfl
  · cases h

/-- Witness of C18 at `float`. -/
theorem packet_traits_unpacket_traits_witness :
    unpacket_traits PacketType.Packet8f = ⟨ScalarType.float, 8⟩ :=
  packet_traits_unpacket_traits.2.2 ScalarType.float ⟨PacketType.Packet8f, 1, 1, 8, 1, 0⟩ rfl

/-! ## Bitwise and-not -/

/-- C19 at the failing input: with `a` the pattern of `-1.0` and `b` the sign mask in every
lane, `a AND (NOT b)` is the pattern of `1.0`, and `pandnot(a, b)` is the zero pattern,
because the intrinsic complements its first operand: the lanes are `(NOT a_i) AND b_i`. -/
theorem pandnot_complements_first_operand :
    pandnot_Packet8f (_mm256_castsi256_ps (_mm256_set1_epi32 0xBF800000))
        (_mm256_castsi256_ps (_mm256_set1_epi32 0x80000000)) =
      ⟨0, 0, 0, 0, 0, 0, 0, 0⟩ ∧
    0xBF800000 &&& NOT 32 0x80000000 = 0x3F800000 ∧
    pandnot_Packet4d ⟨0xBFF0000000000000, 0xBFF0000000000000, 0xBFF0000000000000,
        0xBFF0000000000000⟩
        ⟨0x8000000000000000, 0x8000000000000000, 0x8000000000000000, 0x8000000000000000⟩ =
      ⟨0, 0, 0, 0⟩ ∧
    0xBFF0000000000000 &&& NOT 64 0x8000000000000000 = 0x3FF0000000000000 ∧
    (∀ (a b : Packet8f Nat) (i : Fin 8),
      (pandnot_Packet8f a b).lane i = NOT 32 (a.lane i) &&& b.lane i) ∧
    (∀ (a b : Packet4d Nat) (i : Fin 4),
      (pandnot_Packet4d a b).lane i = NOT 64 (a.lane i) &&& b.lane i) := by
  refine ⟨by decide, by decide, by decide, by decide, fun a b i => ?_, fun a b i => ?_⟩
  · fin_cases i <;> rfl
  · fin_cases i <;> rfl

/-! ## The unreachable alternative of `preverse<Packet4d>` -/

/-- C20: the statements after the `return` of `preverse<Packet4d>` compute the same function
as the returned expression, both being `{a3, a2, a1, a0}`. -/
theorem preverse_Packet4d_unreachable_eq (a : Packet4d α) :
    preverse_Packet4d_unreachable a = preverse_Packet4d a ∧
      preverse_Packet4d a = ⟨a.x3, a.x2, a.x1, a.x0⟩ :=
  ⟨rfl, rfl⟩

/-! ## Minimum and maximum of the lanes -/

/-- Lane `i` of a reordered packet is lane `σ i`. -/
theorem Packet8f.reorder_lane8 {β : Type} (a : Packet8f β) (σ : Fin 8 → Fin 8) (i : Fin 8) :
    (a.reorder σ).lane i = a.lane (σ i) := by
  fin_cases i <;> rfl

/-- Lane `i` of a reordered packet is lane `σ i`. -/
theorem Packet4d.reorder_lane4 {β : Type} (a : Packet4d β) (σ : Fin 4 → Fin 4) (i : Fin 4) :
    (a.reorder σ).lane i = a.lane (σ i) := by
  fin_cases i <;> rfl

/-- The loop body of `predux_min` is the binary minimum. -/
theorem ite_lt_eq_min {β : Type} [LinearOrder β] (x r : β) :
    (if x < r then x else r) = min r x := by
  rcases lt_or_le x r with h | h
  · rw [if_pos h, min_eq_right h.le]
  · rw [if_neg (not_lt.mpr h), min_eq_left h]
/-- The loop of `predux_min_Packet8f` as nested binary minima. -/
theorem predux_min_Packet8f_eq {β : Type} [LinearOrder β] (a : Packet8f β) :
    predux_min_Packet8f a = min (min (min (min (min (min (min (a.x0) a.x1) a.x2) a.x3) a.x4) a.x5) a.x6) a.x7 := by
  simp only [predux_min_Packet8f, List.foldl, ite_lt_eq_min]
  rfl

/-- The result of `predux_min_Packet8f` is one of the lanes. -/
theorem predux_min_Packet8f_mem {β : Type} [LinearOrder β] (a : Packet8f β) :
    ∃ i, predux_min_Packet8f a = a.lane i := by
  have step : ∀ (r : β) (j : Fin 8), (∃ i, r = a.lane i) → ∃ i, min r (a.lane j) = a.lane i := by
    rintro r j ⟨i, hi⟩
    rcases min_choice r (a.lane j) with h | h
    · exact ⟨i, h.trans hi⟩
    · exact ⟨j, h⟩
  rw [predux_min_Packet8f_eq]
  exact step _ 7 (step _ 6 (step _ 5 (step _ 4 (step _ 3 (step _ 2 (step _ 1 (⟨0, rfl⟩)))))))

/-- The result of `predux_min_Packet8f` bounds every lane. -/
theorem predux_min_Packet8f_bound {β : Type} [LinearOrder β] (a : Packet8f β) (i : Fin 8) :
    predux_min_Packet8f a ≤ a.lane i := by
  rw [predux_min_Packet8f_eq]
  fin_cases i <;> simp [Packet8f.lane]

/-- The loop of `predux_min_Packet4d` as nested binary minima. -/
theorem predux_min_Packet4d_eq {β : Type} [LinearOrder β] (a : Packet4d β) :
    predux_min_Packet4d a = min (min (min (a.x0) a.x1) a.x2) a.x3 := by
  simp only [predux_min_Packet4d, List.foldl, ite_lt_eq_min]
  rfl

/-- The result of `predux_min_Packet4d` is one of the lanes. -/
theorem predux_min_Packet4d_mem {β : Type} [LinearOrder β] (a : Packet4d β) :
    ∃ i, predux_min_Packet4d a = a.lane i := by
  have step : ∀ (r : β) (j : Fin 4), (∃ i, r = a.lane i) → ∃ i, min r (a.lane j) = a.lane i := by
    rintro r j ⟨i, hi⟩
    rcases min_choice r (a.lane j) with h | h
    · exact ⟨i, h.trans hi⟩
    · exact ⟨j, h⟩
  rw [predux_min_Packet4d_eq]
  exact step _ 3 (step _ 2 (step _ 1 (⟨0, rfl⟩)))

/-- The result of `predux_min_Packet4d` bounds every lane. -/
theorem predux_min_Packet4d_bound {β : Type} [LinearOrder β] (a : Packet4d β) (i : Fin 4) :
    predux_min_Packet4d a ≤ a.lane i := by
  rw [predux_min_Packet4d_eq]
  fin_cases i <;> simp [Packet4d.lane]

/-- C13: over a totally ordered lane type `predux_min<Packet8f>(a)` and
`predux_min<Packet4d>(a)` are the least lane: the result is some lane of `a`, it is less
than or equal to every lane of `a`, and it is the same for every reordering of the lanes. -/
theorem predux_min_least_lane {β : Type} [LinearOrder β] :
    (∀ a : Packet8f β,
      (∃ i, predux_min_Packet8f a = a.lane i) ∧
      (∀ i, predux_min_Packet8f a ≤ a.lane i) ∧
      ∀ σ : Equiv.Perm (Fin 8), predux_min_Packet8f (a.reorder σ) = predux_min_Packet8f a) ∧
    (∀ a : Packet4d β,
      (∃ i, predux_min_Packet4d a = a.lane i) ∧
      (∀ i, predux_min_Packet4d a ≤ a.lane i) ∧
      ∀ σ : Equiv.Perm (Fin 4), predux_min_Packet4d (a.reorder σ) = predux_min_Packet4d a) := by
  refine ⟨fun a => ?_, fun a => ?_⟩
  · refine ⟨predux_min_Packet8f_mem a, predux_min_Packet8f_bound a, fun σ => le_antisymm ?_ ?_⟩
    · obtain ⟨j, hj⟩ := predux_min_Packet8f_mem a
      have h := predux_min_Packet8f_bound (a.reorder σ) (σ.symm j)
      rwa [Packet8f.reorder_lane8, Equiv.apply_symm_apply, ← hj] at h
    · obtain ⟨j, hj⟩ := predux_min_Packet8f_mem (a.reorder σ)
      rw [hj, Packet8f.reorder_lane8]
      exact predux_min_Packet8f_bound a (σ j)
  · refine ⟨predux_min_Packet4d_mem a, predux_min_Packet4d_bound a, fun σ => le_antisymm ?_ ?_⟩
    · obtain ⟨j, hj⟩ := predux_min_Packet4d_mem a
      have h := predux_min_Packet4d_bound (a.reorder σ) (σ.symm j)
      rwa [Packet4d.reorder_lane4, Equiv.apply_symm_apply, ← hj] at h
    · obtain ⟨j, hj⟩ := predux_min_Packet4d_mem (a.reorder σ)
      rw [hj, Packet4d.reorder_lane4]
      exact predux_min_Packet4d_bound a (σ j)

/-- The loop body of `predux_max` is the binary maximum. -/
theorem ite_gt_eq_max {β : Type} [LinearOrder β] (x r : β) :
    (if x > r then x else r) = max r x := by
  rcases lt_or_le r x with h | h
  · rw [if_pos h, max_eq_right h.le]
  · rw [if_neg (not_lt.mpr h), max_eq_left h]
/-- The loop of `predux_max_Packet8f` as nested binary maxima. -/
theorem predux_max_Packet8f_eq {β : Type} [LinearOrder β] (a : Packet8f β) :
    predux_max_Packet8f a = max (max (max (max (max (max (max (a.x0) a.x1) a.x2) a.x3) a.x4) a.x5) a.x6) a.x7 := by
  simp only [predux_max_Packet8f, List.foldl, ite_gt_eq_max]
  rfl

/-- The result of `predux_max_Packet8f` is one of the lanes. -/
theorem predux_max_Packet8f_mem {β : Type} [LinearOrder β] (a : Packet8f β) :
    ∃ i, predux_max_Packet8f a = a.lane i := by
  have step : ∀ (r : β) (j : Fin 8), (∃ i, r = a.lane i) → ∃ i, max r (a.lane j) = a.lane i := by
    rintro r j ⟨i, hi⟩
    rcases max_choice r (a.lane j) with h | h
    · exact ⟨i, h.trans hi⟩
    · exact ⟨j, h⟩
  rw [predux_max_Packet8f_eq]
  exact step _ 7 (step _ 6 (step _ 5 (step _ 4 (step _ 3 (step _ 2 (step _ 1 (⟨0, rfl⟩)))))))

/-- The result of `predux_max_Packet8f` bounds every lane. -/
theorem predux_max_Packet8f_bound {β : Type} [LinearOrder β] (a : Packet8f β) (i : Fin 8) :
    a.lane i ≤ predux_max_Packet8f a := by
  rw [predux_max_Packet8f_eq]
  fin_cases i <;> simp [Packet8f.lane]

/-- The loop of `predux_max_Packet4d` as nested binary maxima. -/
theorem predux_max_Packet4d_eq {β : Type} [LinearOrder β] (a : Packet4d β) :
    predux_max_Packet4d a = max (max (max (a.x0) a.x1) a.x2) a.x3 := by
  simp only [predux_max_Packet4d, List.foldl, ite_gt_eq_max]
  rfl

/-- The result of `predux_max_Packet4d` is one of the lanes. -/
theorem predux_max_Packet4d_mem {β : Type} [LinearOrder β] (a : Packet4d β) :
    ∃ i, predux_max_Packet4d a = a.lane i := by
  have step : ∀ (r : β) (j : Fin 4), (∃ i, r = a.lane i) → ∃ i, max r (a.lane j) = a.lane i := by
    rintro r j ⟨i, hi⟩
    rcases max_choice r (a.lane j) with h | h
    · exact ⟨i, h.trans hi⟩
    · exact ⟨j, h⟩
  rw [predux_max_Packet4d_eq]
  exact step _ 3 (step _ 2 (step _ 1 (⟨0, rfl⟩)))

/-- The result of `predux_max_Packet4d` bounds every lane. -/
theorem predux_max_Packet4d_bound {β : Type} [LinearOrder β] (a : Packet4d β) (i : Fin 4) :
    a.lane i ≤ predux_max_Packet4d a := by
  rw [predux_max_Packet4d_eq]
  fin_cases i <;> simp [Packet4d.lane]

/-- C14: over a totally ordered lane type `predux_max<Packet8f>(a)` and
`predux_max<Packet4d>(a)` are the greatest lane: the result is some lane of `a`, it is greater
than or equal to every lane of `a`, and it is the same for every reordering of the lanes. -/
theorem predux_max_greatest_lane {β : Type} [LinearOrder β] :
    (∀ a : Packet8f β,
      (∃ i, predux_max_Packet8f a = a.lane i) ∧
      (∀ i, a.lane i ≤ predux_max_Packet8f a) ∧
      ∀ σ : Equiv.Perm (Fin 8), predux_max_Packet8f (a.reorder σ) = predux_max_Packet8f a) ∧
    (∀ a : Packet4d β,
      (∃ i, predux_max_Packet4d a = a.lane i) ∧
      (∀ i, a.lane i ≤ predux_max_Packet4d a) ∧
      ∀ σ : Equiv.Perm (Fin 4), predux_max_Packet4d (a.reorder σ) = predux_max_Packet4d a) := by
  refine ⟨fun a => ?_, fun a => ?_⟩
  · refine ⟨predux_max_Packet8f_mem a, predux_max_Packet8f_bound a, fun σ => le_antisymm ?_ ?_⟩
    · obtain ⟨j, hj⟩ := predux_max_Packet8f_mem (a.reorder σ)
      rw [hj, Packet8f.reorder_lane8]
      exact predux_max_Packet8f_bound a (σ j)
    · obtain ⟨j, hj⟩ := predux_max_Packet8f_mem a
      have h := predux_max_Packet8f_bound (a.reorder σ) (σ.symm j)
      rwa [Packet8f.reorder_lane8, Equiv.apply_symm_apply, ← hj] at h
  · refine ⟨predux_max_Packet4d_mem a, predux_max_Packet4d_bound a, fun σ => le_antisymm ?_ ?_⟩
    · obtain ⟨j, hj⟩ := predux_max_Packet4d_mem (a.reorder σ)
      rw [hj, Packet4d.reorder_lane4]
      exact predux_max_Packet4d_bound a (σ j)
    · obtain ⟨j, hj⟩ := predux_max_Packet4d_mem a
      have h := predux_max_Packet4d_bound (a.reorder σ) (σ.symm j)
      rwa [Packet4d.reorder_lane4, Equiv.apply_symm_apply, ← hj] at h

/-! ## Addition through load and store -/

/-- C16 as stated fails: for arrays of exactly eight floats (four doubles) of which `x` does
not start at a multiple of 32 bytes, the aligned load of `pload` faults and nothing is
stored, so `z[i] = x[i] + y[i]` is not obtained. -/
theorem padd_stored_misaligned_fails :
    padd_stored_float 4 [(1 : Int), 2, 3, 4, 5, 6, 7, 8] 0 64 [10, 20, 30, 40, 50, 60, 70, 80] 0
        128 [0, 0, 0, 0, 0, 0, 0, 0] 0 = none ∧
      padd_stored_double 8 [(1 : Int), 2, 3, 4] 0 64 [10, 20, 30, 40] 0 128 [0, 0, 0, 0] 0 =
        none := by
  decide

/-- C16 amended: for arrays `x`, `y`, `z` that hold a whole packet at the positions used and
whose addresses there are multiples of 32 bytes, storing `padd(pload(x), pload(y))` with
`pstore` to `z` succeeds, keeps the length of `z`, and gives `z[i] = x[i] + y[i]` for every
`i < 8` (floats) and every `i < 4` (doubles). -/
theorem padd_stored_lanes {β : Type} [Add β] (x y z : List β) (fx fy tz : Nat)
    (xaddr yaddr zaddr : Nat) :
    (∀ (hx : fx + 8 ≤ x.length) (hy : fy + 8 ≤ y.length), tz + 8 ≤ z.length →
      (xaddr + 4 * fx) % 32 = 0 → (yaddr + 4 * fy) % 32 = 0 → (zaddr + 4 * tz) % 32 = 0 →
      ∃ z2, padd_stored_float xaddr x fx yaddr y fy zaddr z tz = some z2 ∧
        z2.length = z.length ∧
        ∀ (i : Nat) (hi : i < 8),
          z2[tz + i]? = some (x.get ⟨fx + i, by omega⟩ + y.get ⟨fy + i, by omega⟩)) ∧
    (∀ (hx : fx + 4 ≤ x.length) (hy : fy + 4 ≤ y.length), tz + 4 ≤ z.length →
      (xaddr + 8 * fx) % 32 = 0 → (yaddr + 8 * fy) % 32 = 0 → (zaddr + 8 * tz) % 32 = 0 →
      ∃ z2, padd_stored_double xaddr x fx yaddr y fy zaddr z tz = some z2 ∧
        z2.length = z.length ∧
        ∀ (i : Nat) (hi : i < 4),
          z2[tz + i]? = some (x.get ⟨fx + i, by omega⟩ + y.get ⟨fy + i, by omega⟩)) := by
  refine ⟨fun hx hy hz ax ay az => ?_, fun hx hy hz ax ay az => ?_⟩
  · simp only [padd_stored_float, pload_Packet8f, _mm256_load_ps, if_pos ax, if_pos ay,
      dif_pos hx, dif_pos hy, Option.some_bind, pstore_float, _mm256_store_ps, if_pos az,
      if_pos hz]
    refine ⟨_, rfl, ?_, ?_⟩
    · simp only [List.length_set]
    · intro i hi
      interval_cases i <;>
        simp [List.getElem?_set, padd_Packet8f, _mm256_add_ps] <;> omega
  · simp only [padd_stored_double, pload_Packet4d, _mm256_load_pd, if_pos ax, if_pos ay,
      dif_pos hx, dif_pos hy, Option.some_bind, pstore_double, _mm256_store_pd, if_pos az,
      if_pos hz]
    refine ⟨_, rfl, ?_, ?_⟩
    · simp only [List.length_set]
    · intro i hi
      interval_cases i <;>
        simp [List.getElem?_set, padd_Packet4d, _mm256_add_pd] <;> omega

/-- Witness of C16: two arrays of exactly eight (four) integers at aligned addresses added
into a third. -/
theorem padd_stored_lanes_witness :
    padd_stored_float 0 [(1 : Int), 2, 3, 4, 5, 6, 7, 8] 0 32 [10, 20, 30, 40, 50, 60, 70, 80] 0
        64 [0, 0, 0, 0, 0, 0, 0, 0] 0 = some [(11 : Int), 22, 33, 44, 55, 66, 77, 88] ∧
      padd_stored_double 0 [(1 : Int), 2, 3, 4] 0 32 [10, 20, 30, 40] 0 64 [0, 0, 0, 0] 0 =
        some [(11 : Int), 22, 33, 44] ∧
      (∃ z2 : List Int, padd_stored_float 0 [(1 : Int), 2, 3, 4, 5, 6, 7, 8] 0
          32 [10, 20, 30, 40, 50, 60, 70, 80] 0 64 [0, 0, 0, 0, 0, 0, 0, 0] 0 = some z2 ∧
          z2.length = 8 ∧ z2[0 + 7]? = some (88 : Int)) ∧
      (∃ z2 : List Int, padd_stored_double 0 [(1 : Int), 2, 3, 4] 0 32 [10, 20, 30, 40] 0
          64 [0, 0, 0, 0] 0 = some z2 ∧ z2.length = 4 ∧ z2[0 + 3]? = some (44 : Int)) :=
  ⟨by decide, by decide,
   (((padd_stored_lanes [(1 : Int), 2, 3, 4, 5, 6, 7, 8] [10, 20, 30, 40, 50, 60, 70, 80]
      [0, 0, 0, 0, 0, 0, 0, 0] 0 0 0 0 32 64).1 (by decide) (by decide) (by decide)
      (by decide) (by decide) (by decide)).imp
      fun _ h => ⟨h.1, h.2.1, h.2.2 7 (by decide)⟩),
   (((padd_stored_lanes [(1 : Int), 2, 3, 4] [10, 20, 30, 40] [0, 0, 0, 0] 0 0 0 0 32 64).2
      (by decide) (by decide) (by decide) (by decide) (by decide) (by decide)).imp
      fun _ h => ⟨h.1, h.2.1, h.2.2 3 (by decide)⟩)⟩

end Theorems

end internal
end Eigen
